import Mathlib

/-!
Verification of the LVGL C bitmap to PNG converter
(src/icons/lvgl_to_png.py) against its natural-language specification.

The Python script has two core functions:
  * parse_lvgl_c_file : regex-based extraction of palette, packed bitmap
    bytes, and image metadata from the C source text;
  * convert_1bit_indexed_to_png : decoding of the packed 1-bit stream into
    an RGBA pixel grid.

We embed the regex machinery used by the script (Python re.search /
re.finditer / re.findall with leftmost, greedy-with-backtracking
semantics, restricted to the constructs the script's patterns use:
literals, character classes, greedy star/plus over a class, a fixed
two-repetition of a class, capture groups, concatenation) and translate
both functions over lists of characters.  ASCII is assumed for the
character classes, matching the script's intended inputs (C source).
-/

set_option maxRecDepth 100000

abbrev Str := List Char

abbrev Color := Nat × Nat × Nat × Nat

/-- Character class for the regex token \w (ASCII model). -/
def isWordChar (c : Char) : Bool := c.isAlphanum || c = '_'

/-- Character class for the regex token \s (ASCII model). -/
def isSpaceChar (c : Char) : Bool :=
  c = ' ' || c = '\t' || c = '\n' || c = '\x0d' || c = '\x0b' || c = '\x0c'

/-- Character class for the regex token \d (ASCII model). -/
def isDigitChar (c : Char) : Bool := c.isDigit

/-- Character class [0-9a-fA-F]. -/
def isHexChar (c : Char) : Bool :=
  c.isDigit || ('a' ≤ c && c ≤ 'f') || ('A' ≤ c && c ≤ 'F')

/-- Character class [^\x7d] (anything but a closing brace). -/
def isNotCloseBrace (c : Char) : Bool := c ≠ '}'

/-- The regex fragment language actually used by the script's patterns. -/
inductive RE where
  | lit : Str → RE
  | star : (Char → Bool) → RE
  | plus : (Char → Bool) → RE
  | rep2 : (Char → Bool) → RE
  | grp : RE → RE
  | cat : RE → RE → RE

/-- Match a literal prefix, returning the remaining suffix. -/
def stripLit : Str → Str → Option Str
  | [], s => some s
  | _ :: _, [] => none
  | c :: cs, d :: ds => if c = d then stripLit cs ds else none

/-- Longest prefix of characters satisfying the class, plus the rest. -/
def takeClass (p : Char → Bool) : Str → Str × Str
  | [] => ([], [])
  | c :: cs =>
    if p c then
      let r := takeClass p cs
      (c :: r.1, r.2)
    else ([], c :: cs)

/-- All ways a greedy class-star can split the input, longest first
(Python's backtracking order for a starred character class). -/
def starSplits (p : Char → Bool) (s : Str) : List (Str × Str) :=
  let t := takeClass p s
  (List.range (t.1.length + 1)).reverse.map
    (fun k => (t.1.take k, t.1.drop k ++ t.2))

/-- Run a regex at the start of the input.  Returns every possible
(consumed text, captured groups in order, remaining suffix) triple in
backtracking priority order; the head is the match Python's engine
produces. -/
def mrun : RE → Str → List (Str × List Str × Str)
  | .lit l, s =>
    match stripLit l s with
    | some r => [(l, [], r)]
    | none => []
  | .star p, s => (starSplits p s).map (fun q => (q.1, [], q.2))
  | .plus p, s =>
    (starSplits p s).filterMap
      (fun q => if q.1.isEmpty then none else some (q.1, [], q.2))
  | .rep2 p, s =>
    match s with
    | c1 :: c2 :: r => if p c1 && p c2 then [([c1, c2], [], r)] else []
    | _ => []
  | .grp r, s => (mrun r s).map (fun q => (q.1, q.1 :: q.2.1, q.2.2))
  | .cat r1 r2, s =>
    (mrun r1 s).flatMap
      (fun q =>
        (mrun r2 q.2.2).map
          (fun q2 => (q.1 ++ q2.1, q.2.1 ++ q2.2.1, q2.2.2)))

/-- Python re.search: try the pattern at each position left to right and
return the first (leftmost) match, with its start index, consumed text,
groups, and the suffix after the match. -/
def searchFrom (re : RE) : Str → Nat → Option (Nat × Str × List Str × Str)
  | [], i =>
    match (mrun re []).head? with
    | some m => some (i, m)
    | none => none
  | c :: t, i =>
    match (mrun re (c :: t)).head? with
    | some m => some (i, m)
    | none => searchFrom re t (i + 1)

/-- Python re.finditer: successive non-overlapping leftmost matches,
each continuing from the end of the previous one (advancing one
character after an empty match).  Fuel-indexed; fuel = length + 1
suffices. -/
def findIterAux (re : RE) : Nat → Str → List (List Str)
  | 0, _ => []
  | fuel + 1, s =>
    match searchFrom re s 0 with
    | none => []
    | some m =>
      if m.2.1.isEmpty then
        match m.2.2.2 with
        | [] => [m.2.2.1]
        | _ :: t => m.2.2.1 :: findIterAux re fuel t
      else m.2.2.1 :: findIterAux re fuel m.2.2.2

/-- Chain a list of regex fragments by concatenation. -/
def reSeq : List RE → RE
  | [] => .lit []
  | [r] => r
  | r :: rs => .cat r (reSeq rs)

/-- Regex of line 35: (\w+)_map\[\]\s*=\s*\x7b([^\x7d]+)\x7d . -/
def bitmapRE : RE :=
  reSeq [.grp (.plus isWordChar), .lit "_map[]".toList, .star isSpaceChar,
    .lit "=".toList, .star isSpaceChar, .lit "\x7b".toList,
    .grp (.plus isNotCloseBrace), .lit "\x7d".toList]

/-- Regex of line 45: 0x([0-9a-fA-F]\x7b2\x7d) . -/
def hexRE : RE := reSeq [.lit "0x".toList, .grp (.rep2 isHexChar)]

/-- Fragment 0x([0-9a-fA-F]\x7b2\x7d), of the palette pattern. -/
def hexByteComma : RE :=
  reSeq [.lit "0x".toList, .grp (.rep2 isHexChar), .lit ",".toList]

/-- Regex of line 23: /\*Color of index (\d+)\*/\s*\n\s*0xHH, four times. -/
def colorRE : RE :=
  reSeq [.lit "/*Color of index ".toList, .grp (.plus isDigitChar),
    .lit "*/".toList, .star isSpaceChar, .lit "\n".toList,
    .star isSpaceChar, hexByteComma, .star isSpaceChar, hexByteComma,
    .star isSpaceChar, hexByteComma, .star isSpaceChar, hexByteComma]

/-- Regex of line 52 (with the bitmap name interpolated):
const lv_img_dsc_t NAME\s*=\s*\x7b([^\x7d]+)\x7d . -/
def descRE (name : Str) : RE :=
  reSeq [.lit ("const lv_img_dsc_t ".toList ++ name), .star isSpaceChar,
    .lit "=".toList, .star isSpaceChar, .lit "\x7b".toList,
    .grp (.plus isNotCloseBrace), .lit "\x7d".toList]

/-- Regex of line 61: \.w\s*=\s*(\d+) . -/
def widthRE : RE :=
  reSeq [.lit ".w".toList, .star isSpaceChar, .lit "=".toList,
    .star isSpaceChar, .grp (.plus isDigitChar)]

/-- Regex of line 62: \.h\s*=\s*(\d+) . -/
def heightRE : RE :=
  reSeq [.lit ".h".toList, .star isSpaceChar, .lit "=".toList,
    .star isSpaceChar, .grp (.plus isDigitChar)]

/-- Regex of line 71: \.cf\s*=\s*(\w+) . -/
def cfRE : RE :=
  reSeq [.lit ".cf".toList, .star isSpaceChar, .lit "=".toList,
    .star isSpaceChar, .grp (.plus isWordChar)]

/-- Value of an ASCII hex digit (int(c, 16) for a valid digit). -/
def hexDigitVal (c : Char) : Nat :=
  if c.isDigit then c.toNat - 48
  else if 'a' ≤ c && c ≤ 'f' then c.toNat - 87
  else if 'A' ≤ c && c ≤ 'F' then c.toNat - 55
  else 0

/-- int(s, 16) on a hex-digit string. -/
def hexVal (s : Str) : Nat := s.foldl (fun a c => 16 * a + hexDigitVal c) 0

/-- int(s) on a decimal-digit string. -/
def natOfDigits (s : Str) : Nat := s.foldl (fun a c => 10 * a + (c.toNat - 48)) 0

/-- The dict produced by the palette loop (lines 24-32): association list
in match order; a later binding for the same index overwrites an earlier
one, which dictGet implements by folding left. -/
def dictGet (l : List (Nat × Color)) (k : Nat) : Option Color :=
  l.foldl (fun acc p => if p.1 = k then some p.2 else acc) none

/-- The result dictionary of parse_lvgl_c_file (lines 74-81). -/
structure BitmapInfo where
  name : Str
  width : Nat
  height : Nat
  color_format : Str
  colors : List (Nat × Color)
  bitmap_data : List Nat
deriving DecidableEq, Repr

/-- re.finditer(color_pattern, content): list of the five captured groups
of each palette-entry match (lines 26-32). -/
def colorMatches (content : Str) : List (List Str) :=
  findIterAux colorRE (content.length + 1) content

/-- Build the colors dict entries from one palette match. -/
def parseColorGroups : List Str → Option (Nat × Color)
  | [gi, gr, gg, gb, ga] =>
    some (natOfDigits gi, (hexVal gr, hexVal gg, hexVal gb, hexVal ga))
  | _ => none

/-- The colors dict of lines 24-32, as an association list in match order. -/
def extractColors (content : Str) : List (Nat × Color) :=
  (colorMatches content).filterMap parseColorGroups

/-- re.search(bitmap_pattern, content) followed by group extraction
(lines 35-42): the bitmap identifier and the raw byte-list text. -/
def findBitmap (content : Str) : Option (Str × Str) :=
  match searchFrom bitmapRE content 0 with
  | some (_, _, [g1, g2], _) => some (g1, g2)
  | _ => none

/-- re.findall(hex_pattern, s) (lines 45-46): every two-digit hex literal
in order. -/
def findallHex (s : Str) : List Str :=
  (findIterAux hexRE (s.length + 1) s).filterMap List.head?

/-- re.search(desc_pattern, content) (lines 52-58): the field list of the
descriptor block named after the bitmap identifier. -/
def findDesc (content name : Str) : Option Str :=
  match searchFrom (descRE name) content 0 with
  | some (_, _, [g], _) => some g
  | _ => none

/-- re.search for the .w field (line 61): the captured digit string. -/
def findW (descContent : Str) : Option Str :=
  match searchFrom widthRE descContent 0 with
  | some (_, _, [g], _) => some g
  | _ => none

/-- re.search for the .h field (line 62): the captured digit string. -/
def findH (descContent : Str) : Option Str :=
  match searchFrom heightRE descContent 0 with
  | some (_, _, [g], _) => some g
  | _ => none

/-- re.search for the .cf field (line 71): the captured identifier. -/
def findCf (descContent : Str) : Option Str :=
  match searchFrom cfRE descContent 0 with
  | some (_, _, [g], _) => some g
  | _ => none

/-- parse_lvgl_c_file (lines 16-81), over the file's text content.
ValueError is modelled by Except.error carrying the message. -/
def parse_lvgl_c_file (content : Str) : Except Str BitmapInfo :=
  let colors := extractColors content
  match findBitmap content with
  | none => .error "Could not find bitmap data array".toList
  | some (bitmap_name, bitmap_data_str) =>
    let hex_values := findallHex bitmap_data_str
    let bitmap_bytes := (hex_values.drop 8).map hexVal
    match findDesc content bitmap_name with
    | none => .error "Could not find image descriptor".toList
    | some desc_content =>
      match findW desc_content, findH desc_content with
      | some wDigits, some hDigits =>
        let color_format := (findCf desc_content).getD "unknown".toList
        .ok ⟨bitmap_name, natOfDigits wDigits, natOfDigits hDigits,
          color_format, colors, bitmap_bytes⟩
      | _, _ => .error "Could not find image dimensions".toList

/-- The fallback RGBA color (0, 0, 0, 255) of lines 110 and 114. -/
def defaultColor : Color := (0, 0, 0, 255)

/-- The color stored at pixel (x, y) by convert_1bit_indexed_to_png
(lines 98-114). -/
def decodePixel (info : BitmapInfo) (x y : Nat) : Color :=
  let bytes_per_row := (info.width + 7) / 8
  let byte_index := y * bytes_per_row + x / 8
  let bit_index := 7 - x % 8
  match info.bitmap_data.get? byte_index with
  | some byte_value =>
    let bit_value := (byte_value >>> bit_index) &&& 1
    (dictGet info.colors bit_value).getD defaultColor
  | none => (dictGet info.colors 0).getD defaultColor

/-- The full pixel grid produced by convert_1bit_indexed_to_png, row
major: row y, then column x. -/
def decode (info : BitmapInfo) : List (List Color) :=
  (List.range info.height).map
    (fun y => (List.range info.width).map (fun x => decodePixel info x y))

/-- Read pixel (x, y) of a grid, with the fallback color out of range. -/
def gridGet (g : List (List Color)) (x y : Nat) : Color :=
  (g.getD y []).getD x defaultColor

/-!  Inputs and descriptors used by the concrete instantiations. -/

def infoC1 : BitmapInfo :=
  ⟨['b'], 8, 1, "unknown".toList,
   [(0, (255, 255, 255, 255)), (1, (0, 0, 0, 255))], [0xB0]⟩

def infoC2 : BitmapInfo := ⟨['a'], 8, 1, "unknown".toList, [(0, (9, 9, 9, 9))], []⟩

def infoC8a : BitmapInfo :=
  ⟨['a'], 3, 2, "unknown".toList, [(0, defaultColor)], [1, 2]⟩

def infoC8b : BitmapInfo :=
  ⟨['b'], 3, 2, "x".toList, [(0, defaultColor)], [1, 2]⟩

def infoC10 : BitmapInfo :=
  ⟨['c'], 8, 1, "unknown".toList,
   [(0, (255, 255, 255, 255)), (1, (0, 0, 0, 255))], [0xB0]⟩

def infoC4 : BitmapInfo :=
  ⟨['d'], 8, 2, "unknown".toList, [(0, (7, 7, 7, 7)), (1, (8, 8, 8, 8))], [0xFF]⟩

def contentC3 : Str :=
  "a_map[] = \x7b0x01,0x02,0x03\x7d const lv_img_dsc_t a = \x7b .w = 8, .h = 1 \x7d".toList

def bodyC3 : Str := "0x01,0x02,0x03".toList

def descC3 : Str := " .w = 8, .h = 1 ".toList

def dC3 : BitmapInfo := ⟨['a'], 8, 1, "unknown".toList, [], []⟩

def contentC5 : Str := "const lv_img_dsc_t a = \x7b .w = 1, .h = 1 \x7d".toList

def contentC6 : Str :=
  "b_map[] = \x7b0x01\x7d const lv_img_dsc_t b = \x7b .w = 4 \x7d".toList

def contentC9 : Str := "; a_map[] = \x7b0x01\x7d b_map[] = \x7b0x02\x7d".toList

def matchC9 : Str × List Str × Str :=
  ("a_map[] = \x7b0x01\x7d".toList, [['a'], "0x01".toList],
    " b_map[] = \x7b0x02\x7d".toList)

/-!  Helper lemmas. -/

theorem gridGet_decode (info : BitmapInfo) {x y : Nat}
    (hy : y < info.height) (hx : x < info.width) :
    gridGet (decode info) x y = decodePixel info x y := by
  simp [gridGet, decode, List.getD_eq_getElem?_getD, List.getElem?_map,
    List.getElem?_range, hy, hx]

theorem div8_lt_stride {x w : Nat} (hx : x < w) : x / 8 < (w + 7) / 8 := by
  have h1 : (x / 8 + 1) * 8 ≤ w + 7 := by
    have := Nat.div_mul_le_self x 8
    omega
  have h2 := (Nat.le_div_iff_mul_le (by norm_num : 0 < 8)).mpr h1
  omega

theorem byteIndex_lt {x y w h : Nat} (hx : x < w) (hy : y < h) :
    y * ((w + 7) / 8) + x / 8 < h * ((w + 7) / 8) := by
  have h1 := div8_lt_stride hx
  calc y * ((w + 7) / 8) + x / 8 < y * ((w + 7) / 8) + (w + 7) / 8 := by omega
    _ = (y + 1) * ((w + 7) / 8) := by ring
    _ ≤ h * ((w + 7) / 8) := Nat.mul_le_mul hy (le_refl _)

theorem decode_oob (info : BitmapInfo) {x y : Nat}
    (hx : x < info.width) (hy : y < info.height)
    (hoob : info.bitmap_data.length ≤ y * ((info.width + 7) / 8) + x / 8) :
    gridGet (decode info) x y = (dictGet info.colors 0).getD defaultColor := by
  rw [gridGet_decode info hy hx]
  have hn : info.bitmap_data.get? (y * ((info.width + 7) / 8) + x / 8) = none := by
    rw [List.get?_eq_getElem?]
    exact List.getElem?_eq_none hoob
  rw [decodePixel]
  simp only [hn]

/-- C1: decoding the single byte 0xB0 at width 8, height 1 with palette
0 ↦ white, 1 ↦ black yields the row black, white, black, black, white,
white, white, white: bit 7 of the byte is the leftmost pixel and the bit
value is (byte >>> (7 - x % 8)) &&& 1. -/
theorem claim_C1_bit_order :
    decode infoC1 =
      [[(0, 0, 0, 255), (255, 255, 255, 255), (0, 0, 0, 255), (0, 0, 0, 255),
        (255, 255, 255, 255), (255, 255, 255, 255), (255, 255, 255, 255),
        (255, 255, 255, 255)]] := by decide

/-- C2: for every descriptor with positive width and height, decode
always succeeds, producing a full height-by-width grid, and every pixel
whose byte offset y * ceil(width/8) + x/8 is at or past the end of the
stream receives the palette's entry for index 0, defaulting to opaque
black when index 0 is unmapped. -/
theorem claim_C2_total_and_oob (info : BitmapInfo)
    (hw : 0 < info.width) (hh : 0 < info.height) (x y : Nat)
    (hx : x < info.width) (hy : y < info.height)
    (hoob : info.bitmap_data.length ≤ y * ((info.width + 7) / 8) + x / 8) :
    (decode info).length = info.height ∧
    (∀ row ∈ decode info, row.length = info.width) ∧
    gridGet (decode info) x y = (dictGet info.colors 0).getD defaultColor := by
  refine ⟨by simp [decode], ?_, ?_⟩
  · intro row hrow
    simp only [decode, List.mem_map] at hrow
    obtain ⟨yy, _, rfl⟩ := hrow
    simp
  · exact decode_oob info hx hy hoob

theorem claim_C2_witness :
    (decode infoC2).length = infoC2.height ∧
    (∀ row ∈ decode infoC2, row.length = infoC2.width) ∧
    gridGet (decode infoC2) 0 0 = (dictGet infoC2.colors 0).getD defaultColor :=
  claim_C2_total_and_oob infoC2 (by decide) (by decide) 0 0 (by decide)
    (by decide) (by decide)

/-- C8: decoding is deterministic and depends on no state other than the
descriptor's width, height, palette and packed bit stream: two
descriptors agreeing on those four fields decode to identical grids,
whatever their names or color-format tags. -/
theorem claim_C8_determinism (a b : BitmapInfo) (h1 : a.width = b.width)
    (h2 : a.height = b.height) (h3 : a.colors = b.colors)
    (h4 : a.bitmap_data = b.bitmap_data) : decode a = decode b := by
  simp only [decode, decodePixel, h1, h2, h3, h4]

theorem claim_C8_witness : decode infoC8a = decode infoC8b :=
  claim_C8_determinism infoC8a infoC8b rfl rfl rfl rfl

/-- C10: every color in the decoded grid is the palette's entry for
index 0, the palette's entry for index 1, or opaque black (0,0,0,255);
no other color value ever appears. -/
theorem claim_C10_palette_range (info : BitmapInfo)
    (hw : 0 < info.width) (hh : 0 < info.height)
    (row : List Color) (c : Color) (hr : row ∈ decode info) (hc : c ∈ row) :
    dictGet info.colors 0 = some c ∨ dictGet info.colors 1 = some c ∨
      c = (0, 0, 0, 255) := by
  simp only [decode, List.mem_map] at hr
  obtain ⟨y, hy, rfl⟩ := hr
  simp only [List.mem_map] at hc
  obtain ⟨x, hx, rfl⟩ := hc
  rw [decodePixel]
  rcases hb : (BitmapInfo.bitmap_data info).get?
      (y * ((BitmapInfo.width info + 7) / 8) + x / 8) with _ | b
  · simp only
    rcases h0 : dictGet info.colors 0 with _ | p
    · right; right; rfl
    · left; simp
  · simp only
    have hbit : (b >>> (7 - x % 8)) &&& 1 = 0 ∨ (b >>> (7 - x % 8)) &&& 1 = 1 := by
      rw [Nat.and_one_is_mod]
      omega
    rcases hbit with hbit | hbit <;> rw [hbit]
    · rcases h0 : dictGet info.colors 0 with _ | p
      · right; right; rfl
      · left; simp
    · rcases h1 : dictGet info.colors 1 with _ | p
      · right; right; rfl
      · right; left; simp

theorem claim_C10_witness :
    dictGet infoC10.colors 0 = some ((0, 0, 0, 255) : Color) ∨
    dictGet infoC10.colors 1 = some ((0, 0, 0, 255) : Color) ∨
    ((0, 0, 0, 255) : Color) = (0, 0, 0, 255) :=
  claim_C10_palette_range infoC10 (by decide) (by decide)
    [(0, 0, 0, 255), (255, 255, 255, 255), (0, 0, 0, 255), (0, 0, 0, 255),
      (255, 255, 255, 255), (255, 255, 255, 255), (255, 255, 255, 255),
      (255, 255, 255, 255)]
    (0, 0, 0, 255) (by decide) (by decide)

/-- C4: when the stream is exactly height * ceil(width/8) bytes long,
every pixel's byte offset is an in-bounds read (the out-of-bounds branch
is never taken); when the stream is exactly one byte shorter, decoding
still succeeds with a full grid, the pixels of the last row whose byte
offset falls in the missing final byte receive the index-0 fallback
color, and every other pixel is still an in-bounds read. -/
theorem claim_C4_boundary (info : BitmapInfo)
    (hw : 0 < info.width) (hh : 0 < info.height) (x y : Nat)
    (hx : x < info.width) (hy : y < info.height) :
    (info.bitmap_data.length = info.height * ((info.width + 7) / 8) →
      y * ((info.width + 7) / 8) + x / 8 < info.bitmap_data.length) ∧
    (info.bitmap_data.length = info.height * ((info.width + 7) / 8) - 1 →
      (decode info).length = info.height ∧
      ((y = info.height - 1 ∧ x / 8 = (info.width + 7) / 8 - 1) →
        gridGet (decode info) x y = (dictGet info.colors 0).getD defaultColor) ∧
      (¬(y = info.height - 1 ∧ x / 8 = (info.width + 7) / 8 - 1) →
        y * ((info.width + 7) / 8) + x / 8 < info.bitmap_data.length)) := by
  have hxs : x / 8 < (info.width + 7) / 8 := div8_lt_stride hx
  have e1 : (info.height - 1) * ((info.width + 7) / 8) =
      info.height * ((info.width + 7) / 8) - (info.width + 7) / 8 :=
    Nat.sub_one_mul _ _
  have e2 : (info.width + 7) / 8 ≤ info.height * ((info.width + 7) / 8) :=
    Nat.le_mul_of_pos_left _ hh
  constructor
  · intro hlen
    rw [hlen]
    exact byteIndex_lt hx hy
  · intro hlen
    refine ⟨by simp [decode], ?_, ?_⟩
    · rintro ⟨hyl, hxl⟩
      apply decode_oob info hx hy
      rw [hlen, hyl, hxl]
      omega
    · intro hne
      have e3 : (y + 1) * ((info.width + 7) / 8) =
          y * ((info.width + 7) / 8) + (info.width + 7) / 8 := by ring
      by_cases hyy : y = info.height - 1
      · have hxne : x / 8 ≠ (info.width + 7) / 8 - 1 := by
          intro hcontra
          exact hne ⟨hyy, hcontra⟩
        rw [hlen, hyy]
        omega
      · have hy2 : y + 1 ≤ info.height - 1 := by omega
        have e4 : (y + 1) * ((info.width + 7) / 8) ≤
            (info.height - 1) * ((info.width + 7) / 8) :=
          Nat.mul_le_mul hy2 (le_refl _)
        rw [hlen]
        omega

theorem claim_C4_witness :
    (infoC4.bitmap_data.length = infoC4.height * ((infoC4.width + 7) / 8) →
      1 * ((infoC4.width + 7) / 8) + 0 / 8 < infoC4.bitmap_data.length) ∧
    (infoC4.bitmap_data.length = infoC4.height * ((infoC4.width + 7) / 8) - 1 →
      (decode infoC4).length = infoC4.height ∧
      ((1 = infoC4.height - 1 ∧ 0 / 8 = (infoC4.width + 7) / 8 - 1) →
        gridGet (decode infoC4) 0 1 = (dictGet infoC4.colors 0).getD defaultColor) ∧
      (¬(1 = infoC4.height - 1 ∧ 0 / 8 = (infoC4.width + 7) / 8 - 1) →
        1 * ((infoC4.width + 7) / 8) + 0 / 8 < infoC4.bitmap_data.length)) :=
  claim_C4_boundary infoC4 (by decide) (by decide) 0 1 (by decide) (by decide)

/-- Inversion of a successful parse: the intermediate regex searches all
succeeded and the result's fields are exactly what lines 74-81 assemble. -/
theorem parse_ok_fields (content : Str) (d : BitmapInfo)
    (hp : parse_lvgl_c_file content = .ok d) :
    ∃ name body descC wDigits hDigits,
      findBitmap content = some (name, body) ∧
      findDesc content name = some descC ∧
      findW descC = some wDigits ∧ findH descC = some hDigits ∧
      d = ⟨name, natOfDigits wDigits, natOfDigits hDigits,
        (findCf descC).getD "unknown".toList, extractColors content,
        ((findallHex body).drop 8).map hexVal⟩ := by
  simp only [parse_lvgl_c_file] at hp
  split at hp
  · exact (Except.noConfusion hp)
  next bitmap_name body hb =>
    split at hp
    · exact (Except.noConfusion hp)
    next descC hdm =>
      split at hp
      next wDigits hDigits hw hh =>
        simp only [Except.ok.injEq] at hp
        exact ⟨bitmap_name, body, descC, wDigits, hDigits, hb, hdm, hw, hh,
          hp.symm⟩
      next hno =>
        exact (Except.noConfusion hp)

/-- C3: whenever parsing succeeds, the packed bit stream's length is the
number of two-digit hex literals in the bitmap array body minus 8 (in
truncated natural subtraction, hence never negative), and when the body
holds fewer than 8 hex bytes the extractor still returns (no crash) with
an empty stream. -/
theorem claim_C3_stream_length (content : Str) (d : BitmapInfo)
    (name body : Str)
    (hb : findBitmap content = some (name, body))
    (hp : parse_lvgl_c_file content = .ok d) :
    d.bitmap_data.length = (findallHex body).length - 8 ∧
    ((findallHex body).length < 8 → d.bitmap_data.length = 0) := by
  obtain ⟨n', b', dc', w', h', hb', hdm', hw', hh', rfl⟩ :=
    parse_ok_fields content d hp
  rw [hb] at hb'
  simp only [Option.some.injEq, Prod.mk.injEq] at hb'
  obtain ⟨rfl, rfl⟩ := hb'
  constructor
  · simp [List.length_map, List.length_drop]
  · intro hlt
    simp [List.length_map, List.length_drop]
    omega

/-- C5: an input with no bitmap-array match fails with the
bitmap-array-not-found ValueError and produces no descriptor, while
zero palette-entry matches is not an error: a successful parse of such
an input carries an empty palette. -/
theorem claim_C5_missing_array_empty_palette :
    (∀ content : Str, searchFrom bitmapRE content 0 = none →
      parse_lvgl_c_file content =
        .error "Could not find bitmap data array".toList) ∧
    (∀ (content : Str) (d : BitmapInfo), parse_lvgl_c_file content = .ok d →
      colorMatches content = [] → d.colors = []) := by
  constructor
  · intro content h
    have hb : findBitmap content = none := by rw [findBitmap, h]
    simp only [parse_lvgl_c_file, hb]
  · intro content d hp hc
    obtain ⟨n', b', dc', w', h', hb', hdm', hw', hh', rfl⟩ :=
      parse_ok_fields content d hp
    simp [extractColors, hc]

/-- C6: with the bitmap array and descriptor block both located, a
descriptor block carrying .w and .h but no .cf parses successfully with
color format the literal string unknown, while a block lacking .w or .h
fails with the missing-dimensions ValueError. -/
theorem claim_C6_cf_default_and_missing_dims (content name body descC : Str)
    (hb : findBitmap content = some (name, body))
    (hdm : findDesc content name = some descC) :
    (∀ wDigits hDigits, findW descC = some wDigits →
      findH descC = some hDigits → findCf descC = none →
      ∃ d, parse_lvgl_c_file content = .ok d ∧
        d.color_format = "unknown".toList) ∧
    ((findW descC = none ∨ findH descC = none) →
      parse_lvgl_c_file content =
        .error "Could not find image dimensions".toList) := by
  constructor
  · intro wDigits hDigits hw hh hcf
    refine ⟨⟨name, natOfDigits wDigits, natOfDigits hDigits,
      "unknown".toList, extractColors content,
      ((findallHex body).drop 8).map hexVal⟩, ?_, rfl⟩
    simp only [parse_lvgl_c_file, hb, hdm, hw, hh, hcf, Option.getD_none]
  · intro hmiss
    rcases hmiss with hW | hH
    · simp only [parse_lvgl_c_file, hb, hdm, hW]
    · rcases hw2 : findW descC with _ | wDigits <;>
        simp only [parse_lvgl_c_file, hb, hdm, hw2, hH]

/-- C7: a successful parse returns exactly the decimal integers written
in the .w and .h fields as width and height, with no adjustment. -/
theorem claim_C7_exact_dims (content : Str) (d : BitmapInfo)
    (name body descC wDigits hDigits : Str)
    (hb : findBitmap content = some (name, body))
    (hdm : findDesc content name = some descC)
    (hw : findW descC = some wDigits) (hh : findH descC = some hDigits)
    (hp : parse_lvgl_c_file content = .ok d) :
    d.width = natOfDigits wDigits ∧ d.height = natOfDigits hDigits := by
  obtain ⟨n', b', dc', w', h', hb', hdm', hw', hh', rfl⟩ :=
    parse_ok_fields content d hp
  rw [hb] at hb'
  simp only [Option.some.injEq, Prod.mk.injEq] at hb'
  obtain ⟨rfl, rfl⟩ := hb'
  rw [hdm] at hdm'
  simp only [Option.some.injEq] at hdm'
  subst hdm'
  rw [hw] at hw'
  rw [hh] at hh'
  simp only [Option.some.injEq] at hw' hh'
  subst hw'
  subst hh'
  exact ⟨rfl, rfl⟩

/-- When the pattern matches at the current position, the search stops
there. -/
theorem searchFrom_here (re : RE) (s : Str) (i : Nat)
    (m : Str × List Str × Str) (hm : (mrun re s).head? = some m) :
    searchFrom re s i = some (i, m) := by
  cases s with
  | nil => rw [searchFrom, hm]
  | cons c t => rw [searchFrom, hm]

/-- When the pattern does not match at the current position, the search
moves one character right. -/
theorem searchFrom_step (re : RE) (c : Char) (t : Str) (i : Nat)
    (h0 : (mrun re (c :: t)).head? = none) :
    searchFrom re (c :: t) i = searchFrom re t (i + 1) := by
  rw [searchFrom, h0]

/-- A leftmost-match property of the search loop: if the pattern matches
at offset n and at no earlier offset, the search started at index i
reports the match at index i + n. -/
theorem searchFrom_first (re : RE) (m : Str × List Str × Str) :
    ∀ (n : Nat) (s : Str) (i : Nat),
      (mrun re (s.drop n)).head? = some m →
      (∀ j, j < n → (mrun re (s.drop j)).head? = none) →
      searchFrom re s i = some (i + n, m)
  | 0, s, i, hm, _ => by
    rw [List.drop_zero] at hm
    rw [searchFrom_here re s i m hm, Nat.add_zero]
  | n + 1, s, i, hm, hnone => by
    have h0 : (mrun re s).head? = none := by
      have := hnone 0 (Nat.succ_pos n)
      rwa [List.drop_zero] at this
    cases s with
    | nil =>
      rw [List.drop_nil] at hm
      rw [hm] at h0
      exact (Option.noConfusion h0)
    | cons c t =>
      rw [searchFrom_step re c t i h0]
      have hm' : (mrun re (t.drop n)).head? = some m := by
        rwa [List.drop_succ_cons] at hm
      have hnone' : ∀ j, j < n → (mrun re (t.drop j)).head? = none := by
        intro j hj
        have := hnone (j + 1) (by omega)
        rwa [List.drop_succ_cons] at this
      rw [searchFrom_first re m n t (i + 1) hm' hnone']
      have he : i + 1 + n = i + (n + 1) := by omega
      rw [he]

/-- C9: when several bitmap-array declarations match, the extractor uses
the leftmost match (its identifier and byte list), silently ignoring the
later ones, and does not fail at the bitmap-locating step. -/
theorem claim_C9_first_match (content : Str) (i : Nat)
    (m : Str × List Str × Str)
    (hm : (mrun bitmapRE (content.drop i)).head? = some m)
    (hnone : ∀ j, j < i → (mrun bitmapRE (content.drop j)).head? = none) :
    searchFrom bitmapRE content 0 = some (i, m) ∧
    (∀ g1 g2, m.2.1 = [g1, g2] → findBitmap content = some (g1, g2)) := by
  have h1 := searchFrom_first bitmapRE m i content 0 hm hnone
  rw [Nat.zero_add] at h1
  refine ⟨h1, ?_⟩
  intro g1 g2 hg
  obtain ⟨a, g, r⟩ := m
  simp only at hg
  subst hg
  rw [findBitmap, h1]

theorem claim_C3_witness :
    dC3.bitmap_data.length = (findallHex bodyC3).length - 8 ∧
    ((findallHex bodyC3).length < 8 → dC3.bitmap_data.length = 0) :=
  claim_C3_stream_length contentC3 dC3 ['a'] bodyC3 (by rfl) (by rfl)

theorem claim_C5_witness :
    parse_lvgl_c_file contentC5 =
      .error "Could not find bitmap data array".toList ∧
    dC3.colors = [] :=
  ⟨claim_C5_missing_array_empty_palette.1 contentC5 (by rfl),
   claim_C5_missing_array_empty_palette.2 contentC3 dC3 (by rfl) (by rfl)⟩

theorem claim_C6_witness :
    (∃ d, parse_lvgl_c_file contentC3 = .ok d ∧
      d.color_format = "unknown".toList) ∧
    parse_lvgl_c_file contentC6 =
      .error "Could not find image dimensions".toList :=
  ⟨(claim_C6_cf_default_and_missing_dims contentC3 ['a'] bodyC3 descC3
      (by rfl) (by rfl)).1 ['8'] ['1'] (by rfl) (by rfl) (by rfl),
   (claim_C6_cf_default_and_missing_dims contentC6 ['b'] "0x01".toList
      " .w = 4 ".toList (by rfl) (by rfl)).2 (Or.inr (by rfl))⟩

theorem claim_C7_witness :
    dC3.width = natOfDigits ['8'] ∧ dC3.height = natOfDigits ['1'] :=
  claim_C7_exact_dims contentC3 dC3 ['a'] bodyC3 descC3 ['8'] ['1']
    (by rfl) (by rfl) (by rfl) (by rfl) (by rfl)

theorem claim_C9_witness :
    searchFrom bitmapRE contentC9 0 = some (2, matchC9) ∧
    (∀ g1 g2, matchC9.2.1 = [g1, g2] →
      findBitmap contentC9 = some (g1, g2)) :=
  claim_C9_first_match contentC9 2 matchC9 (by rfl) (by decide)
